import Mathlib

/-
Verification of the hoyt-bot core: the hedge decision engine
(src/utils/calculations.ts), the resilient exchange client
(src/modules/hyperliquidClient.ts) and the action executor
(src/modules/hedgeController.ts), shallowly embedded over exact
rational arithmetic. JavaScript division by zero (Infinity/NaN) is
modeled explicitly by the JNum type, since the deviation formula in
determineHedgeAction divides by the required hedge size without a
guard. Exchange-client network attempts are modeled by an oracle
assigning an outcome to every attempt number, and the retry loop is
embedded as a structurally recursive function whose gas parameter
mirrors the remaining loop iterations.
-/

namespace Hoyt

/-! Data model (src/types.ts), restricted to the fields the core reads. -/

structure LPPosition where
  token0Exposure : ℚ
  token1Exposure : ℚ
  totalValueUSD : ℚ
deriving DecidableEq

structure HyperliquidPosition where
  coin : String
  entryPrice : ℚ
  size : ℚ
deriving DecidableEq

inductive HedgingAction where
  | INCREASE_SHORT
  | DECREASE_SHORT
  | NO_ACTION
  | CLOSE_POSITIONS
deriving DecidableEq

structure HedgeDecision where
  action : HedgingAction
  sizeChange : ℚ
deriving DecidableEq

structure HyperliquidMarketData where
  coin : String
  price : ℚ
  fundingRate : ℚ
deriving DecidableEq

inductive OrderSide where
  | BUY
  | SELL
deriving DecidableEq

inductive OrderKind where
  | LIMIT
  | MARKET
deriving DecidableEq

structure HyperliquidOrder where
  coin : String
  side : OrderSide
  size : ℚ
  price : Option ℚ
  orderType : OrderKind
  reduceOnly : Bool
deriving DecidableEq

inductive OrderStatus where
  | success
  | error
deriving DecidableEq

structure HyperliquidOrderResponse where
  status : OrderStatus
  order : Option HyperliquidOrder
  id : Option String
  error : Option String
deriving DecidableEq

structure ExecutionResult where
  success : Bool
  action : HedgingAction
  details : Option String
  error : Option String
  timestamp : ℕ
deriving DecidableEq

/-! JavaScript numeric edge semantics: the one place the engine can divide
by zero is the Rule-3 deviation. JNum captures the IEEE outcome of that
division and the subsequent greater-than comparison. -/

inductive JNum where
  | fin (q : ℚ)
  | inf
  | ninf
  | nan
deriving DecidableEq

/-- JavaScript division a / b: finite quotient when b is nonzero, otherwise
Infinity, -Infinity or NaN according to the sign of a. -/
def jsDiv (a b : ℚ) : JNum :=
  if b = 0 then
    if 0 < a then JNum.inf else if a < 0 then JNum.ninf else JNum.nan
  else JNum.fin (a / b)

/-- JavaScript comparison x > t for x a possibly non-finite number and t
finite: NaN compares false, Infinity compares true. -/
def jsGtB : JNum → ℚ → Bool
  | JNum.fin q, t => decide (t < q)
  | JNum.inf, _ => true
  | JNum.ninf, _ => false
  | JNum.nan, _ => false

/-! Hedge decision engine (src/utils/calculations.ts). -/

/-- calculateUsdValue: amount times price. -/
def calculateUsdValue (amount price : ℚ) : ℚ := amount * price

/-- calculateRequiredHedgeSize: the token0 (PENDLE) exposure of the LP
position is what must be hedged. -/
def calculateRequiredHedgeSize (lpPosition : LPPosition) : ℚ :=
  lpPosition.token0Exposure

/-- Model of parseFloat(x.toFixed(2)): round to two decimal places, ties
toward the larger value, as specified for Number.prototype.toFixed. -/
def roundTo2 (q : ℚ) : ℚ := (⌊q * 100 + 1/2⌋ : ℚ) / 100

/-- calculateDeviation: percentage deviation between exposure and hedge
size, guarding the near-zero hedge with the 1e-6 epsilon. -/
def calculateDeviation (lpPendleExposure hedgeSize : ℚ) : ℚ :=
  if hedgeSize = 0 ∨ |hedgeSize| < 1/1000000 then
    if 0 < lpPendleExposure then 100 else 0
  else
    roundTo2 (|lpPendleExposure - hedgeSize| / hedgeSize * 100)

/-- Absolute hedge size of an optional position, 0 when absent. -/
def hedgeAbsSize : Option HyperliquidPosition → ℚ
  | some h => |h.size|
  | none => 0

/-- determineHedgeAction: the four-way decision of the engine. The Rule-3
deviation divides by requiredHedgeSize with no zero guard, so the JS
division semantics (jsDiv, jsGtB) are used there. -/
def determineHedgeAction (lpPosition : LPPosition)
    (hedgePosition : Option HyperliquidPosition)
    (rebalanceThreshold : ℚ) (_pendlePrice : ℚ) : HedgeDecision :=
  if lpPosition.totalValueUSD = 0 then
    ⟨HedgingAction.CLOSE_POSITIONS, hedgeAbsSize hedgePosition⟩
  else
    let requiredHedgeSize := calculateRequiredHedgeSize lpPosition
    match hedgePosition with
    | none =>
        if 0 < requiredHedgeSize then
          ⟨HedgingAction.INCREASE_SHORT, requiredHedgeSize⟩
        else ⟨HedgingAction.NO_ACTION, 0⟩
    | some h =>
        let currentHedgeSize := |h.size|
        let deviation := jsDiv (|requiredHedgeSize - currentHedgeSize|) requiredHedgeSize
        if jsGtB deviation rebalanceThreshold then
          if currentHedgeSize < requiredHedgeSize then
            ⟨HedgingAction.INCREASE_SHORT, requiredHedgeSize - currentHedgeSize⟩
          else
            ⟨HedgingAction.DECREASE_SHORT, currentHedgeSize - requiredHedgeSize⟩
        else ⟨HedgingAction.NO_ACTION, 0⟩

/-- isFundingRateAcceptable: the funding rate magnitude is within the
tolerance. -/
def isFundingRateAcceptable (fundingRate fundingTolerance : ℚ) : Bool :=
  decide (|fundingRate| ≤ fundingTolerance)

/-! Exchange client (src/modules/hyperliquidClient.ts). -/

/-- A JavaScript Error as the client observes it: whether it is a
TypeError (how fetch signals network failure) and its message. -/
structure JsError where
  isTypeError : Bool
  message : String
deriving DecidableEq

/-- Boolean test that pat occurs at the start of s. -/
def charListStartsWith : List Char → List Char → Bool
  | [], _ => true
  | _ :: _, [] => false
  | a :: as, b :: bs => a == b && charListStartsWith as bs

/-- Boolean test that pat occurs somewhere in s. -/
def charListContains (pat : List Char) : List Char → Bool
  | [] => charListStartsWith pat []
  | c :: rest => charListStartsWith pat (c :: rest) || charListContains pat rest

/-- Model of the JavaScript String.prototype.includes substring test. -/
def jsIncludes (s pat : String) : Bool := charListContains pat.data s.data

/-- The transient/fatal classifier of makeRequest: a TypeError, or a
message containing one of the network labels. -/
def isNetworkError (e : JsError) : Bool :=
  e.isTypeError || jsIncludes e.message "network" || jsIncludes e.message "abort" ||
    jsIncludes e.message "timeout"

/-- The outcome the network presents to one attempt of the request loop:
either fetch (or body reading) throws, or a response arrives with its ok
flag, status code, error text and parsed JSON body (none models a body
that parses to null or undefined). -/
inductive FetchOutcome (α : Type) where
  | throws (e : JsError)
  | response (ok : Bool) (status : Nat) (bodyText : String) (body : Option α)
deriving DecidableEq

/-- The message of the error thrown for a non-2xx response. -/
def apiErrorMessage (status : Nat) (bodyText : String) : String :=
  "API error: " ++ toString status ++ " - " ++ bodyText

/-- Result of one request attempt, before retry classification. -/
inductive ReqResult (α : Type) where
  | ok (v : α)
  | err (e : JsError)
deriving DecidableEq

/-- The body of one iteration of the try block in makeRequest: a non-2xx
response throws an API error carrying status and body text, a null or
undefined parsed body throws, otherwise the parsed value is returned. -/
def attemptResult {α : Type} : FetchOutcome α → ReqResult α
  | FetchOutcome.throws e => ReqResult.err e
  | FetchOutcome.response ok status bodyText body =>
      if ok then
        match body with
        | none => ReqResult.err ⟨false, "API returned null or undefined response"⟩
        | some v => ReqResult.ok v
      else ReqResult.err ⟨false, apiErrorMessage status bodyText⟩

/-- True when an attempt fails with an error the loop classifies as
transient. -/
def isTransient {α : Type} : ReqResult α → Bool
  | ReqResult.ok _ => false
  | ReqResult.err e => isNetworkError e

/-- The exponential backoff before the retry that follows a transient
failure of the given attempt. -/
def backoffMs (attempt : Nat) : Nat := min (1000 * 2 ^ (attempt - 1)) 10000

/-- Result of the whole request: the value or error it settles on, the
backoff waits performed between attempts, and how many attempts ran. -/
structure ReqOutcome (α : Type) where
  result : ReqResult α
  waits : List Nat
  attemptsUsed : Nat
deriving DecidableEq

/-- The retry loop of makeRequest. The gas parameter counts the loop
iterations still allowed and equals retries + 1 - attempt at every call,
so gas 0 is exactly the fall-through after the for loop, which throws
the unknown-reason error (reachable only when retries is 0). A transient
error with attempt < retries waits backoffMs attempt and continues; any
other error aborts with that error; a parsed value returns. -/
def requestLoopGo {α : Type} (env : Nat → FetchOutcome α) (retries : Nat) :
    Nat → Nat → List Nat → Nat → ReqOutcome α
  | 0, _attempt, waits, used =>
      ⟨ReqResult.err ⟨false, "Request failed for unknown reason"⟩, waits, used⟩
  | gas + 1, attempt, waits, used =>
      match attemptResult (env attempt) with
      | ReqResult.ok v => ⟨ReqResult.ok v, waits, used + 1⟩
      | ReqResult.err e =>
          if isNetworkError e = true ∧ attempt < retries then
            requestLoopGo env retries gas (attempt + 1)
              (waits ++ [backoffMs attempt]) (used + 1)
          else ⟨ReqResult.err e, waits, used + 1⟩

/-- The retry loop started at attempt 1 with no waits performed. -/
def requestLoop {α : Type} (env : Nat → FetchOutcome α) (retries : Nat) : ReqOutcome α :=
  requestLoopGo env retries retries 1 [] 0

inductive HttpMethod where
  | GET
  | POST
deriving DecidableEq

/-- Outcome of the signing step preceding the loop for POST requests with
a body: signRequest either produces a signature or throws, in which case
makeRequest throws a signing error before any attempt. -/
inductive SignOutcome where
  | ok
  | fails (msg : String)
deriving DecidableEq

/-- makeRequest: signing first (POST with body only), then the retry
loop. A signing failure aborts with zero attempts and zero waits. -/
def makeRequest {α : Type} (method : HttpMethod) (hasBody : Bool)
    (signing : SignOutcome) (env : Nat → FetchOutcome α) (retries : Nat) : ReqOutcome α :=
  if method = HttpMethod.POST ∧ hasBody = true then
    match signing with
    | SignOutcome.fails msg =>
        ⟨ReqResult.err ⟨false, "Request signing failed: " ++ msg⟩, [], 0⟩
    | SignOutcome.ok => requestLoop env retries
  else requestLoop env retries

/-- The venue response to a trade request as placeOrder reads it: a
status string plus optional id and error fields. -/
structure TradeResponse where
  status : String
  id : Option String
  error : Option String
deriving DecidableEq

/-- JavaScript x || d for an optional string field: the default is used
when the field is absent or the empty string (falsy). -/
def jsOrElse (o : Option String) (d : String) : String :=
  match o with
  | some s => if s = "" then d else s
  | none => d

/-- placeOrder: issues the signed trade request and normalizes every
outcome into a HyperliquidOrderResponse. A venue status other than
"success" becomes an error result with the venue error message (or
"Unknown error"); any thrown error, signing included, is caught and
becomes an error result with the error message. -/
def placeOrder (order : HyperliquidOrder) (signing : SignOutcome)
    (env : Nat → FetchOutcome TradeResponse) (retries : Nat) : HyperliquidOrderResponse :=
  match (makeRequest HttpMethod.POST true signing env retries).result with
  | ReqResult.ok resp =>
      if resp.status = "success" then
        ⟨OrderStatus.success, some order, resp.id, none⟩
      else
        ⟨OrderStatus.error, none, none, some (jsOrElse resp.error "Unknown error")⟩
  | ReqResult.err e => ⟨OrderStatus.error, none, none, some e.message⟩

/-! Action executor (src/modules/hedgeController.ts). The exchange client
calls the controller makes are modeled as oracles: each call site reads a
ReqResult that is either the value the client returned or the error it
threw. -/

/-- The outcomes of the client calls one updateHedgePosition tick can
make: the position fetch, the market-data fetch of the Promise.all, the
market-data fetch inside checkFundingRate, and the three order calls. -/
structure ClientOutcomes where
  positionResult : ReqResult (Option HyperliquidPosition)
  marketDataResult : ReqResult HyperliquidMarketData
  fundingMarketDataResult : ReqResult HyperliquidMarketData
  openShortResult : ReqResult HyperliquidOrderResponse
  reduceShortResult : ReqResult HyperliquidOrderResponse
  closePositionResult : ReqResult HyperliquidOrderResponse

/-- HedgeController.getMarketData: on a client error it falls back to
default data with price 0 and fundingRate 0 for the configured ticker. -/
def controllerGetMarketData (r : ReqResult HyperliquidMarketData)
    (ticker : String) : HyperliquidMarketData :=
  match r with
  | ReqResult.ok m => m
  | ReqResult.err _ => ⟨ticker, 0, 0⟩

/-- HedgeController.getHedgePosition: on a client error it returns null. -/
def controllerGetHedgePosition
    (r : ReqResult (Option HyperliquidPosition)) : Option HyperliquidPosition :=
  match r with
  | ReqResult.ok p => p
  | ReqResult.err _ => none

/-- HedgeController.checkFundingRate: fetches market data through the
fallback wrapper and tests the funding rate against the tolerance. The
catch branch of the source (return true on error) is unreachable here
because the wrapped fetch never throws. -/
def checkFundingRate (r : ReqResult HyperliquidMarketData) (ticker : String)
    (fundingTolerance : ℚ) : Bool :=
  isFundingRateAcceptable (controllerGetMarketData r ticker).fundingRate fundingTolerance

/-- The decision updateHedgePosition computes from the fetched hedge
position and market price. -/
def controllerDecision (lp : LPPosition) (c : ClientOutcomes) (ticker : String)
    (rebalanceThreshold : ℚ) : HedgeDecision :=
  determineHedgeAction lp (controllerGetHedgePosition c.positionResult)
    rebalanceThreshold (controllerGetMarketData c.marketDataResult ticker).price

/-- An order call the controller issued to the exchange client. -/
inductive OrderEvent where
  | openShort (coin : String) (sizeUsd : ℚ)
  | reduceShort (coin : String) (sizeUsd : ℚ)
  | closePositions (coin : String)
deriving DecidableEq

/-- Decimal rendering of a rational to two places, standing in for the
toFixed(2) interpolation in log and detail strings. -/
def toFixed2 (q : ℚ) : String :=
  let n : ℤ := ⌊q * 100 + 1/2⌋
  let sgn := if n < 0 then "-" else ""
  let m := n.natAbs
  sgn ++ toString (m / 100) ++ "." ++ (if m % 100 < 10 then "0" else "") ++ toString (m % 100)

/-- HedgeController.updateHedgePosition: computes the decision, then
dispatches on the action. INCREASE_SHORT is gated on checkFundingRate;
DECREASE_SHORT and CLOSE_POSITIONS call the client directly. Every order
call is recorded as an OrderEvent. A thrown client error on an order
call is caught by the surrounding try and converted to a failed result
with action NO_ACTION carrying the error message. All results are
stamped with the tick timestamp now. -/
def updateHedgePosition (lp : LPPosition) (c : ClientOutcomes) (ticker : String)
    (rebalanceThreshold fundingTolerance : ℚ) (now : ℕ) :
    ExecutionResult × List OrderEvent :=
  let decision := controllerDecision lp c ticker rebalanceThreshold
  match decision.action with
  | HedgingAction.NO_ACTION =>
      (⟨true, HedgingAction.NO_ACTION, some "No rebalance needed.", none, now⟩, [])
  | HedgingAction.INCREASE_SHORT =>
      if checkFundingRate c.fundingMarketDataResult ticker fundingTolerance then
        match c.openShortResult with
        | ReqResult.ok res =>
            if res.status = OrderStatus.success then
              (⟨true, HedgingAction.INCREASE_SHORT,
                  some ("Increased short position by " ++ toFixed2 decision.sizeChange ++ " USD"),
                  none, now⟩,
                [OrderEvent.openShort ticker decision.sizeChange])
            else
              (⟨false, HedgingAction.INCREASE_SHORT, none,
                  some (jsOrElse res.error "Unknown error increasing short position"), now⟩,
                [OrderEvent.openShort ticker decision.sizeChange])
        | ReqResult.err e =>
            (⟨false, HedgingAction.NO_ACTION, none, some e.message, now⟩,
              [OrderEvent.openShort ticker decision.sizeChange])
      else
        (⟨false, HedgingAction.INCREASE_SHORT,
            some "Funding rate exceeds tolerance. Skipping hedge increase.", none, now⟩, [])
  | HedgingAction.DECREASE_SHORT =>
      match c.reduceShortResult with
      | ReqResult.ok res =>
          if res.status = OrderStatus.success then
            (⟨true, HedgingAction.DECREASE_SHORT,
                some ("Decreased short position by " ++ toFixed2 decision.sizeChange ++ " USD"),
                none, now⟩,
              [OrderEvent.reduceShort ticker decision.sizeChange])
          else
            (⟨false, HedgingAction.DECREASE_SHORT, none,
                some (jsOrElse res.error "Unknown error decreasing short position"), now⟩,
              [OrderEvent.reduceShort ticker decision.sizeChange])
      | ReqResult.err e =>
          (⟨false, HedgingAction.NO_ACTION, none, some e.message, now⟩,
            [OrderEvent.reduceShort ticker decision.sizeChange])
  | HedgingAction.CLOSE_POSITIONS =>
      match c.closePositionResult with
      | ReqResult.ok res =>
          if res.status = OrderStatus.success then
            (⟨true, HedgingAction.CLOSE_POSITIONS,
                some ("Closed all positions for " ++ ticker), none, now⟩,
              [OrderEvent.closePositions ticker])
          else
            (⟨false, HedgingAction.CLOSE_POSITIONS, none,
                some (jsOrElse res.error "Unknown error closing positions"), now⟩,
              [OrderEvent.closePositions ticker])
      | ReqResult.err e =>
          (⟨false, HedgingAction.NO_ACTION, none, some e.message, now⟩,
            [OrderEvent.closePositions ticker])

/-! Concrete fixtures used by the witnesses and counterexamples. -/

/-- LP position with token0 exposure 120 USD. -/
def lp120 : LPPosition := ⟨120, 120, 240⟩

/-- LP position with token0 exposure 80 USD. -/
def lp80 : LPPosition := ⟨80, 80, 160⟩

/-- LP position with token0 exposure 100 USD. -/
def lp100 : LPPosition := ⟨100, 100, 200⟩

/-- Empty LP position: zero exposure and zero total value. -/
def lpEmpty : LPPosition := ⟨0, 0, 0⟩

/-- Out-of-range LP position: zero token0 exposure but nonzero total
value held entirely in token1. -/
def lpToken1Only : LPPosition := ⟨0, 50, 50⟩

/-- An existing short hedge of 100 USD (size is signed, negative for
short). -/
def hedgeShort100 : HyperliquidPosition := ⟨"PENDLE", 3, -100⟩

/-- Attempt oracle whose first attempt is a non-2xx response whose body
text contains the word timeout, and whose second attempt succeeds. -/
def cexEnv : Nat → FetchOutcome Nat := fun attempt =>
  if attempt = 1 then FetchOutcome.response false 503 "upstream timeout" none
  else FetchOutcome.response true 200 "" (some 7)

/-- Attempt oracle whose every attempt returns an ok response with a
null parsed body. -/
def nullBodyEnv : Nat → FetchOutcome Nat := fun _ =>
  FetchOutcome.response true 200 "ok" none

/-- Attempt oracle with two transient failures (a TypeError, then a
connection timeout) followed by a success. -/
def retryEnv : Nat → FetchOutcome Nat := fun attempt =>
  if attempt = 1 then FetchOutcome.throws ⟨true, "fetch failed"⟩
  else if attempt = 2 then FetchOutcome.throws ⟨false, "connection timeout"⟩
  else FetchOutcome.response true 200 "" (some 7)

/-- A market sell order of 20 USD. -/
def order20 : HyperliquidOrder := ⟨"PENDLE", OrderSide.SELL, 20, none, OrderKind.MARKET, false⟩

/-- Trade oracle whose every attempt returns a venue success response. -/
def tradeEnvOk : Nat → FetchOutcome TradeResponse := fun _ =>
  FetchOutcome.response true 200 "" (some ⟨"success", some "42", none⟩)

/-- Market data with zero funding. -/
def marketPendle : HyperliquidMarketData := ⟨"PENDLE", 3, 0⟩

/-- Market data with funding rate 0.006. -/
def marketHighFunding : HyperliquidMarketData := ⟨"PENDLE", 3, 3/500⟩

/-- A venue success order response. -/
def tradeSuccessResponse : HyperliquidOrderResponse := ⟨OrderStatus.success, none, some "1", none⟩

/-- Client outcomes for a tick with no hedge yet and a funding rate of
0.006 observed by the funding check. -/
def clientHighFunding : ClientOutcomes :=
  ⟨ReqResult.ok none, ReqResult.ok marketPendle, ReqResult.ok marketHighFunding,
    ReqResult.ok tradeSuccessResponse, ReqResult.ok tradeSuccessResponse,
    ReqResult.ok tradeSuccessResponse⟩

/-- Client outcomes for a tick whose closePosition call throws. -/
def clientCloseThrows : ClientOutcomes :=
  ⟨ReqResult.ok (some hedgeShort100), ReqResult.ok marketPendle, ReqResult.ok marketPendle,
    ReqResult.ok tradeSuccessResponse, ReqResult.ok tradeSuccessResponse,
    ReqResult.err ⟨false, "socket hang up"⟩⟩

/-! Helper lemmas about the retry loop. -/

theorem backoffRange_succ (a m : Nat) :
    (List.range (m + 1)).map (fun k => backoffMs (a + k)) =
      backoffMs a :: (List.range m).map (fun k => backoffMs (a + 1 + k)) := by
  have hf : ((fun k => backoffMs (a + k)) ∘ Nat.succ) = fun k => backoffMs (a + 1 + k) := by
    funext k
    have h1 : a + Nat.succ k = a + 1 + k := by omega
    simp [Function.comp, h1]
  rw [List.range_succ_eq_map, List.map_cons, List.map_map, hf, Nat.add_zero]

theorem requestLoopGo_ok {α : Type} (env : Nat → FetchOutcome α) (retries : Nat) (v : α) :
    ∀ (m attempt : Nat) (waits : List Nat) (used : Nat),
      attempt + m ≤ retries →
      (∀ k, k < m → isTransient (attemptResult (env (attempt + k))) = true) →
      attemptResult (env (attempt + m)) = ReqResult.ok v →
      requestLoopGo env retries (retries + 1 - attempt) attempt waits used =
        ⟨ReqResult.ok v, waits ++ (List.range m).map (fun k => backoffMs (attempt + k)),
          used + (m + 1)⟩ := by
  intro m
  induction m with
  | zero =>
      intro attempt waits used hle _ hok
      rw [Nat.add_zero] at hok
      have hgas : retries + 1 - attempt = (retries - attempt) + 1 := by omega
      rw [hgas]
      simp [requestLoopGo, hok]
  | succ m ih =>
      intro attempt waits used hle htr hok
      have h0 := htr 0 (Nat.succ_pos m)
      rw [Nat.add_zero] at h0
      rcases hres : attemptResult (env attempt) with w | e
      · rw [hres] at h0
        simp [isTransient] at h0
      · rw [hres] at h0
        simp only [isTransient] at h0
        have hlt : attempt < retries := by omega
        have hgas : retries + 1 - attempt = (retries + 1 - (attempt + 1)) + 1 := by omega
        rw [hgas]
        simp only [requestLoopGo, hres, if_pos (And.intro h0 hlt)]
        rw [ih (attempt + 1) (waits ++ [backoffMs attempt]) (used + 1) (by omega)
          (fun k hk => by
            have h2 := htr (k + 1) (by omega)
            have h3 : attempt + (k + 1) = (attempt + 1) + k := by omega
            rwa [h3] at h2)
          (by
            have h3 : (attempt + 1) + m = attempt + (m + 1) := by omega
            rwa [h3])]
        simp only [ReqOutcome.mk.injEq, true_and]
        refine ⟨?_, by omega⟩
        rw [backoffRange_succ, List.append_assoc]
        rfl

theorem requestLoopGo_err {α : Type} (env : Nat → FetchOutcome α) (retries : Nat) :
    ∀ (m attempt : Nat) (waits : List Nat) (used : Nat),
      attempt + m = retries →
      (∀ k, k ≤ m → isTransient (attemptResult (env (attempt + k))) = true) →
      ∃ e, attemptResult (env (attempt + m)) = ReqResult.err e ∧
        requestLoopGo env retries (retries + 1 - attempt) attempt waits used =
          ⟨ReqResult.err e, waits ++ (List.range m).map (fun k => backoffMs (attempt + k)),
            used + (m + 1)⟩ := by
  intro m
  induction m with
  | zero =>
      intro attempt waits used heq htr
      have h0 := htr 0 (Nat.le_refl 0)
      rw [Nat.add_zero] at h0
      rcases hres : attemptResult (env attempt) with w | e
      · rw [hres] at h0
        simp [isTransient] at h0
      · refine ⟨e, by rw [Nat.add_zero]; exact hres, ?_⟩
        have hnlt : ¬ (isNetworkError e = true ∧ attempt < retries) := by
          rintro ⟨_, hlt⟩
          omega
        have hgas : retries + 1 - attempt = 0 + 1 := by omega
        rw [hgas]
        simp only [requestLoopGo, hres, if_neg hnlt]
        simp
  | succ m ih =>
      intro attempt waits used heq htr
      have h0 := htr 0 (Nat.zero_le _)
      rw [Nat.add_zero] at h0
      rcases hres : attemptResult (env attempt) with w | e
      · rw [hres] at h0
        simp [isTransient] at h0
      · rw [hres] at h0
        simp only [isTransient] at h0
        have hlt : attempt < retries := by omega
        obtain ⟨e2, he2, hloop⟩ := ih (attempt + 1) (waits ++ [backoffMs attempt]) (used + 1)
          (by omega)
          (fun k hk => by
            have h2 := htr (k + 1) (by omega)
            have h3 : attempt + (k + 1) = (attempt + 1) + k := by omega
            rwa [h3] at h2)
        refine ⟨e2, ?_, ?_⟩
        · have h3 : attempt + (m + 1) = (attempt + 1) + m := by omega
          rwa [h3]
        · have hgas : retries + 1 - attempt = (retries + 1 - (attempt + 1)) + 1 := by omega
          rw [hgas]
          simp only [requestLoopGo, hres, if_pos (And.intro h0 hlt)]
          rw [hloop]
          simp only [ReqOutcome.mk.injEq, true_and]
          refine ⟨?_, by omega⟩
          rw [backoffRange_succ, List.append_assoc]
          rfl

theorem requestLoopGo_attempts {α : Type} (env : Nat → FetchOutcome α) (retries : Nat) :
    ∀ (gas attempt : Nat) (waits : List Nat) (used : Nat),
      (requestLoopGo env retries gas attempt waits used).attemptsUsed ≤ used + gas := by
  intro gas
  induction gas with
  | zero =>
      intro attempt waits used
      simp [requestLoopGo]
  | succ g ih =>
      intro attempt waits used
      simp only [requestLoopGo]
      rcases hres : attemptResult (env attempt) with w | e
      · simp [hres]
      · simp only [hres]
        split
        · exact le_trans (ih (attempt + 1) (waits ++ [backoffMs attempt]) (used + 1)) (by omega)
        · simp

/-! Claim theorems. -/

/-- C9: for every LP position (any sign or magnitude of token0 exposure),
every hedge position (present or null) and every threshold, the
sizeChange returned by determineHedgeAction is nonnegative. -/
theorem determineHedgeAction_sizeChange_nonneg (lp : LPPosition)
    (hedge : Option HyperliquidPosition) (th p : ℚ) :
    0 ≤ (determineHedgeAction lp hedge th p).sizeChange := by
  by_cases h0 : lp.totalValueUSD = 0
  · cases hedge with
    | some h => simp [determineHedgeAction, h0, hedgeAbsSize, abs_nonneg]
    | none => simp [determineHedgeAction, h0, hedgeAbsSize]
  · cases hedge with
    | none =>
        by_cases hpos : 0 < calculateRequiredHedgeSize lp
        · simpa [determineHedgeAction, h0, hpos] using le_of_lt hpos
        · simp [determineHedgeAction, h0, hpos]
    | some h =>
        by_cases hgt : jsGtB
            (jsDiv (abs (calculateRequiredHedgeSize lp - abs h.size))
              (calculateRequiredHedgeSize lp))
            th = true
        · by_cases hlt : |h.size| < calculateRequiredHedgeSize lp
          · simpa [determineHedgeAction, h0, hgt, hlt] using le_of_lt (sub_pos.mpr hlt)
          · simpa [determineHedgeAction, h0, hgt, hlt] using sub_nonneg.mpr (not_lt.mp hlt)
        · simp [determineHedgeAction, h0, hgt]

/-- C6: calculateDeviation returns 100 when the hedge size is 0 or
smaller in magnitude than 1e-6 and the exposure is positive (0 when it
is not), and otherwise abs(exposure - hedgeSize) / hedgeSize * 100
rounded to 2 decimals, with the six concrete values of the spec. -/
theorem calculateDeviation_spec :
    (∀ e h : ℚ, (h = 0 ∨ |h| < 1/1000000) →
      calculateDeviation e h = if 0 < e then 100 else 0)
    ∧ (∀ e h : ℚ, ¬(h = 0 ∨ |h| < 1/1000000) →
        calculateDeviation e h = roundTo2 (|e - h| / h * 100))
    ∧ calculateDeviation 100 100 = 0
    ∧ calculateDeviation 110 100 = 10
    ∧ calculateDeviation 90 100 = 10
    ∧ calculateDeviation 100 0 = 100
    ∧ calculateDeviation 0 0 = 0
    ∧ calculateDeviation 100 (1/1000000000) = 100 := by
  refine ⟨?_, ?_, ?_, ?_, ?_, ?_, ?_, ?_⟩
  · intro e h hcond
    simp only [calculateDeviation]
    rw [if_pos hcond]
  · intro e h hcond
    simp only [calculateDeviation]
    rw [if_neg hcond]
  · simp only [calculateDeviation]
    rw [if_neg (by norm_num)]
    norm_num [roundTo2]
  · simp only [calculateDeviation]
    rw [if_neg (by norm_num)]
    norm_num [roundTo2]
  · simp only [calculateDeviation]
    rw [if_neg (by norm_num)]
    norm_num [roundTo2]
  · simp only [calculateDeviation]
    norm_num
  · simp only [calculateDeviation]
    norm_num
  · simp only [calculateDeviation]
    rw [if_pos (Or.inr (by norm_num [abs_of_pos]))]
    norm_num

/-- C6 witness: the guard clause evaluated at a concrete input with a
zero hedge and positive exposure. -/
theorem calculateDeviation_spec_witness : calculateDeviation 7 0 = 100 := by
  have h := calculateDeviation_spec.1 7 0 (Or.inl rfl)
  rw [h]
  norm_num

/-- C4: with a nonzero-total-value LP position and an existing hedge,
the decision follows the deviation rule with deviation equal to
abs(requiredHedge - currentHedgeSize) / requiredHedge under JS division
semantics, and the three concrete examples of the spec hold. -/
theorem determineHedgeAction_rebalance_rule :
    (∀ (lp : LPPosition) (h : HyperliquidPosition) (th p : ℚ), lp.totalValueUSD ≠ 0 →
      determineHedgeAction lp (some h) th p =
        (if jsGtB (jsDiv (abs (lp.token0Exposure - abs h.size)) lp.token0Exposure) th then
          if |h.size| < lp.token0Exposure then
            ⟨HedgingAction.INCREASE_SHORT, lp.token0Exposure - |h.size|⟩
          else ⟨HedgingAction.DECREASE_SHORT, |h.size| - lp.token0Exposure⟩
        else ⟨HedgingAction.NO_ACTION, 0⟩))
    ∧ determineHedgeAction lp120 (some hedgeShort100) (1/10) 25 =
        ⟨HedgingAction.INCREASE_SHORT, 20⟩
    ∧ determineHedgeAction lp80 (some hedgeShort100) (1/10) 25 =
        ⟨HedgingAction.DECREASE_SHORT, 20⟩
    ∧ determineHedgeAction lp100 (some hedgeShort100) (1/10) 25 =
        ⟨HedgingAction.NO_ACTION, 0⟩ := by
  refine ⟨?_, ?_, ?_, ?_⟩
  · intro lp h th p hne
    simp [determineHedgeAction, hne, calculateRequiredHedgeSize]
  · norm_num [determineHedgeAction, lp120, hedgeShort100, calculateRequiredHedgeSize,
      jsDiv, jsGtB]
  · norm_num [determineHedgeAction, lp80, hedgeShort100, calculateRequiredHedgeSize,
      jsDiv, jsGtB]
  · norm_num [determineHedgeAction, lp100, hedgeShort100, calculateRequiredHedgeSize,
      jsDiv, jsGtB]

/-- C4 witness: the general deviation rule applied at exposure 120
against a 100 USD hedge with threshold 0.1 yields INCREASE_SHORT of 20. -/
theorem determineHedgeAction_rebalance_rule_witness :
    determineHedgeAction lp120 (some hedgeShort100) (1/10) 25 =
      ⟨HedgingAction.INCREASE_SHORT, 20⟩ := by
  have h := determineHedgeAction_rebalance_rule.1 lp120 hedgeShort100 (1/10) 25
    (by norm_num [lp120])
  rw [h]
  norm_num [lp120, hedgeShort100, jsDiv, jsGtB]

/-- C1 counterexample: an LP position with zero token0 exposure but
nonzero total value, hedged by a 100 USD short, makes
determineHedgeAction return DECREASE_SHORT (the unguarded division by
the zero required hedge yields Infinity), not CLOSE_POSITIONS as the
claim states for every zero-exposure position. -/
theorem determineHedgeAction_zero_exposure_not_close :
    determineHedgeAction lpToken1Only (some hedgeShort100) (1/10) 3 =
      ⟨HedgingAction.DECREASE_SHORT, 100⟩ ∧
    HedgingAction.DECREASE_SHORT ≠ HedgingAction.CLOSE_POSITIONS := by
  constructor
  · norm_num [determineHedgeAction, lpToken1Only, hedgeShort100, calculateRequiredHedgeSize,
      jsDiv, jsGtB]
  · decide

/-- C1 amended: determineHedgeAction returns CLOSE_POSITIONS exactly on
totalValueUSD = 0 (with sizeChange the absolute prior hedge size, or 0
when the hedge is null); when the token0 exposure is 0 but the total
value is nonzero, the Rule-3 division is not guarded: with an existing
hedge of nonzero size the JS division yields Infinity and the decision
is DECREASE_SHORT of the full current hedge size, with a zero-size hedge
the NaN comparison yields NO_ACTION, and with no hedge NO_ACTION. -/
theorem determineHedgeAction_close_only_on_zero_total_value (lp : LPPosition)
    (hedge : Option HyperliquidPosition) (th p : ℚ) :
    (lp.totalValueUSD = 0 →
      determineHedgeAction lp hedge th p =
        ⟨HedgingAction.CLOSE_POSITIONS, hedgeAbsSize hedge⟩)
    ∧ (lp.totalValueUSD ≠ 0 → lp.token0Exposure = 0 →
        determineHedgeAction lp hedge th p =
          match hedge with
          | none => ⟨HedgingAction.NO_ACTION, 0⟩
          | some h =>
              if |h.size| = 0 then ⟨HedgingAction.NO_ACTION, 0⟩
              else ⟨HedgingAction.DECREASE_SHORT, |h.size|⟩) := by
  constructor
  · intro h0
    simp [determineHedgeAction, h0]
  · intro hne h0
    cases hedge with
    | none =>
        simp [determineHedgeAction, hne, calculateRequiredHedgeSize, h0]
    | some h =>
        by_cases hz : |h.size| = 0
        · simp [determineHedgeAction, hne, calculateRequiredHedgeSize, h0, hz, jsDiv, jsGtB]
        · have hpos : 0 < |h.size| := lt_of_le_of_ne (abs_nonneg _) (Ne.symm hz)
          simp [determineHedgeAction, hne, calculateRequiredHedgeSize, h0, hz, jsDiv, jsGtB,
            hpos, not_lt.mpr (le_of_lt hpos)]

/-- C1 witness: the amended rule evaluated on an empty LP position
(CLOSE_POSITIONS of the prior hedge) and on a zero-exposure but
nonzero-value LP position with no hedge (NO_ACTION). -/
theorem determineHedgeAction_close_only_on_zero_total_value_witness :
    determineHedgeAction lpEmpty (some hedgeShort100) (1/10) 3 =
      ⟨HedgingAction.CLOSE_POSITIONS, 100⟩ ∧
    determineHedgeAction lpToken1Only none (1/10) 3 = ⟨HedgingAction.NO_ACTION, 0⟩ := by
  constructor
  · have h := (determineHedgeAction_close_only_on_zero_total_value lpEmpty
      (some hedgeShort100) (1/10) 3).1 (by norm_num [lpEmpty])
    rw [h]
    norm_num [hedgeAbsSize, hedgeShort100]
  · exact (determineHedgeAction_close_only_on_zero_total_value lpToken1Only
      none (1/10) 3).2 (by norm_num [lpToken1Only]) (by norm_num [lpToken1Only])

/-- C2 counterexample: a non-2xx response whose body text contains the
word timeout is classified transient by the substring-based classifier
and is retried (the loop waits backoffMs 1 and succeeds on attempt 2),
not aborted immediately as the claim states for every non-2xx
response. -/
theorem nonOk_response_with_timeout_body_is_retried :
    requestLoop cexEnv 3 = ⟨ReqResult.ok 7, [backoffMs 1], 2⟩ ∧
    requestLoop cexEnv 3 ≠
      ⟨ReqResult.err ⟨false, apiErrorMessage 503 "upstream timeout"⟩, [], 1⟩ := by
  constructor
  · decide
  · decide

/-- C2 amended: a first-attempt error that the substring classifier does
not mark transient aborts immediately with no retry and no wait; in
particular a null or undefined parsed body always does, and a non-2xx
response does whenever its composed message lacks the network, abort
and timeout labels. A signing failure aborts before any attempt. An
error classified transient is retried. -/
theorem makeRequest_fatal_classification :
    (∀ (α : Type) (env : Nat → FetchOutcome α) (retries : Nat) (e : JsError),
        1 ≤ retries → attemptResult (env 1) = ReqResult.err e → isNetworkError e = false →
        requestLoop env retries = ⟨ReqResult.err e, [], 1⟩)
    ∧ (∀ (α : Type) (env : Nat → FetchOutcome α) (retries status : Nat) (bodyText : String),
        1 ≤ retries → env 1 = FetchOutcome.response true status bodyText none →
        requestLoop env retries =
          ⟨ReqResult.err ⟨false, "API returned null or undefined response"⟩, [], 1⟩)
    ∧ (∀ (α : Type) (env : Nat → FetchOutcome α) (retries status : Nat) (bodyText : String)
        (body : Option α),
        1 ≤ retries → env 1 = FetchOutcome.response false status bodyText body →
        isNetworkError ⟨false, apiErrorMessage status bodyText⟩ = false →
        requestLoop env retries = ⟨ReqResult.err ⟨false, apiErrorMessage status bodyText⟩, [], 1⟩)
    ∧ (∀ (α : Type) (env : Nat → FetchOutcome α) (retries : Nat) (msg : String),
        makeRequest HttpMethod.POST true (SignOutcome.fails msg) env retries =
          ⟨ReqResult.err ⟨false, "Request signing failed: " ++ msg⟩, [], 0⟩)
    ∧ (∀ (α : Type) (env : Nat → FetchOutcome α) (retries : Nat) (e : JsError),
        attemptResult (env 1) = ReqResult.err e → isNetworkError e = true → 1 < retries →
        requestLoop env retries = requestLoopGo env retries (retries - 1) 2 [backoffMs 1] 1) := by
  have hfatal : ∀ (α : Type) (env : Nat → FetchOutcome α) (retries : Nat) (e : JsError),
      1 ≤ retries → attemptResult (env 1) = ReqResult.err e → isNetworkError e = false →
      requestLoop env retries = ⟨ReqResult.err e, [], 1⟩ := by
    intro α env retries e hr hres hnet
    unfold requestLoop
    have hgas : retries = (retries - 1) + 1 := by omega
    rw [hgas]
    simp only [requestLoopGo, hres]
    rw [if_neg]
    rintro ⟨hn, _⟩
    simp [hnet] at hn
  refine ⟨hfatal, ?_, ?_, ?_, ?_⟩
  · intro α env retries status bodyText hr henv
    exact hfatal α env retries _ hr (by rw [henv]; rfl) (by decide)
  · intro α env retries status bodyText body hr henv hnet
    exact hfatal α env retries _ hr (by rw [henv]; rfl) hnet
  · intro α env retries msg
    rfl
  · intro α env retries e hres hnet hlt
    unfold requestLoop
    have hgas : retries = (retries - 1) + 1 := by omega
    conv_lhs => rw [hgas]
    simp only [requestLoopGo, hres]
    rw [if_pos (And.intro hnet (by omega))]
    rw [← hgas]
    rfl

/-- C2 witness: the fatal classification applied to a concrete oracle
whose first attempt parses to a null body, and to a concrete signing
failure. -/
theorem makeRequest_fatal_classification_witness :
    requestLoop nullBodyEnv 3 =
      ⟨ReqResult.err ⟨false, "API returned null or undefined response"⟩, [], 1⟩ ∧
    makeRequest HttpMethod.POST true (SignOutcome.fails "key unavailable") nullBodyEnv 3 =
      ⟨ReqResult.err ⟨false, "Request signing failed: key unavailable"⟩, [], 0⟩ := by
  constructor
  · exact makeRequest_fatal_classification.2.1 Nat nullBodyEnv 3 200 "ok" (by omega) rfl
  · exact (makeRequest_fatal_classification.2.2.2.1 Nat nullBodyEnv 3
      "key unavailable").trans (by decide)

/-- C5: a run of transient failures on attempts 1..m followed by a
success on attempt m + 1 within the budget returns that success after
waiting exactly the backoffs min(1000 * 2^(k-1), 10000) of each failed
attempt k; a run of transient failures on every attempt raises the last
transient error after retries attempts; at most retries attempts are
ever made; and the backoff formula is as specified. -/
theorem makeRequest_retry_backoff :
    (∀ (α : Type) (env : Nat → FetchOutcome α) (retries m : Nat) (v : α),
        m + 1 ≤ retries →
        (∀ k, k < m → isTransient (attemptResult (env (1 + k))) = true) →
        attemptResult (env (1 + m)) = ReqResult.ok v →
        requestLoop env retries =
          ⟨ReqResult.ok v, (List.range m).map (fun k => backoffMs (1 + k)), m + 1⟩)
    ∧ (∀ (α : Type) (env : Nat → FetchOutcome α) (retries : Nat),
        1 ≤ retries →
        (∀ k, k < retries → isTransient (attemptResult (env (1 + k))) = true) →
        ∃ e, attemptResult (env retries) = ReqResult.err e ∧
          requestLoop env retries =
            ⟨ReqResult.err e, (List.range (retries - 1)).map (fun k => backoffMs (1 + k)),
              retries⟩)
    ∧ (∀ (α : Type) (env : Nat → FetchOutcome α) (retries : Nat),
        (requestLoop env retries).attemptsUsed ≤ retries)
    ∧ (∀ attempt : Nat, backoffMs attempt = min (1000 * 2 ^ (attempt - 1)) 10000) := by
  refine ⟨?_, ?_, ?_, ?_⟩
  · intro α env retries m v hm htr hok
    have h := requestLoopGo_ok env retries v m 1 [] 0 (by omega) htr hok
    rw [Nat.add_sub_cancel] at h
    simpa [requestLoop] using h
  · intro α env retries hr htr
    obtain ⟨e, he, hloop⟩ := requestLoopGo_err env retries (retries - 1) 1 [] 0 (by omega)
      (fun k hk => htr k (by omega))
    refine ⟨e, ?_, ?_⟩
    · rwa [show 1 + (retries - 1) = retries from by omega] at he
    · rw [Nat.add_sub_cancel] at hloop
      unfold requestLoop
      rw [hloop]
      simp [show (retries - 1) + 1 = retries from by omega]
  · intro α env retries
    simpa [requestLoop] using requestLoopGo_attempts env retries retries 1 [] 0
  · intro attempt
    rfl

/-- C5 witness: two transient failures followed by a success return the
success after waits of exactly 1000 and 2000 milliseconds, which total
at least 3000 milliseconds. -/
theorem makeRequest_retry_backoff_witness :
    requestLoop retryEnv 3 = ⟨ReqResult.ok 7, [1000, 2000], 3⟩ ∧
    List.sum [1000, 2000] ≥ 1000 + 2000 := by
  constructor
  · have h := makeRequest_retry_backoff.1 Nat retryEnv 3 2 7 (by omega)
      (fun k hk => by
        match k, hk with
        | 0, _ => decide
        | 1, _ => decide)
      rfl
    exact h.trans (by decide)
  · decide

/-- C7: placeOrder normalizes every outcome into an order result and
never propagates: a thrown error (transport or signing) becomes an
error result carrying the message, a venue success becomes a success
result carrying the order and the venue id, and a venue status other
than success becomes an error result carrying the venue error message
or the Unknown error default. -/
theorem placeOrder_normalizes_outcomes (order : HyperliquidOrder) (signing : SignOutcome)
    (env : Nat → FetchOutcome TradeResponse) (retries : Nat) :
    (∀ e, (makeRequest HttpMethod.POST true signing env retries).result = ReqResult.err e →
      placeOrder order signing env retries =
        ⟨OrderStatus.error, none, none, some e.message⟩)
    ∧ (∀ resp, (makeRequest HttpMethod.POST true signing env retries).result = ReqResult.ok resp →
        resp.status = "success" →
        placeOrder order signing env retries =
          ⟨OrderStatus.success, some order, resp.id, none⟩)
    ∧ (∀ resp, (makeRequest HttpMethod.POST true signing env retries).result = ReqResult.ok resp →
        resp.status ≠ "success" →
        placeOrder order signing env retries =
          ⟨OrderStatus.error, none, none, some (jsOrElse resp.error "Unknown error")⟩) := by
  refine ⟨?_, ?_, ?_⟩
  · intro e h
    simp [placeOrder, h]
  · intro resp h hst
    simp [placeOrder, h, hst]
  · intro resp h hst
    simp [placeOrder, h, hst]

/-- C7 witness: a signing failure and a venue success both become plain
order results of the same shape. -/
theorem placeOrder_normalizes_outcomes_witness :
    placeOrder order20 (SignOutcome.fails "key unavailable") tradeEnvOk 3 =
      ⟨OrderStatus.error, none, none, some "Request signing failed: key unavailable"⟩ ∧
    placeOrder order20 SignOutcome.ok tradeEnvOk 3 =
      ⟨OrderStatus.success, some order20, some "42", none⟩ := by
  constructor
  · have h := (placeOrder_normalizes_outcomes order20 (SignOutcome.fails "key unavailable")
      tradeEnvOk 3).1 ⟨false, "Request signing failed: " ++ "key unavailable"⟩ rfl
    exact h.trans (by decide)
  · exact (placeOrder_normalizes_outcomes order20 SignOutcome.ok tradeEnvOk 3).2.1
      ⟨"success", some "42", none⟩ rfl rfl

/-- C3: when the decision is INCREASE_SHORT and the funding rate
observed by the funding check exceeds the tolerance in magnitude, the
executor returns a failed result and no order call is made; when the
decision is DECREASE_SHORT or CLOSE_POSITIONS the corresponding order
call is made with no funding-rate check, whatever the funding rate. -/
theorem updateHedgePosition_funding_gate (lp : LPPosition) (c : ClientOutcomes)
    (ticker : String) (th tol : ℚ) (now : ℕ) :
    ((controllerDecision lp c ticker th).action = HedgingAction.INCREASE_SHORT →
      |(controllerGetMarketData c.fundingMarketDataResult ticker).fundingRate| > tol →
      updateHedgePosition lp c ticker th tol now =
        (⟨false, HedgingAction.INCREASE_SHORT,
            some "Funding rate exceeds tolerance. Skipping hedge increase.", none, now⟩, []))
    ∧ ((controllerDecision lp c ticker th).action = HedgingAction.DECREASE_SHORT →
        (updateHedgePosition lp c ticker th tol now).2 =
          [OrderEvent.reduceShort ticker (controllerDecision lp c ticker th).sizeChange])
    ∧ ((controllerDecision lp c ticker th).action = HedgingAction.CLOSE_POSITIONS →
        (updateHedgePosition lp c ticker th tol now).2 = [OrderEvent.closePositions ticker]) := by
  refine ⟨?_, ?_, ?_⟩
  · intro hact hrate
    have hcf : checkFundingRate c.fundingMarketDataResult ticker tol = false := by
      simp only [checkFundingRate, isFundingRateAcceptable, decide_eq_false_iff_not]
      exact not_le.mpr hrate
    simp [updateHedgePosition, hact, hcf]
  · intro hact
    cases hres : c.reduceShortResult with
    | ok res =>
        by_cases hst : res.status = OrderStatus.success <;>
          simp [updateHedgePosition, hact, hres, hst]
    | err e =>
        simp [updateHedgePosition, hact, hres]
  · intro hact
    cases hres : c.closePositionResult with
    | ok res =>
        by_cases hst : res.status = OrderStatus.success <;>
          simp [updateHedgePosition, hact, hres, hst]
    | err e =>
        simp [updateHedgePosition, hact, hres]

/-- C3 witness: a pending INCREASE_SHORT with funding rate 0.006 and
tolerance 0.005 yields a failed result and places no order. -/
theorem updateHedgePosition_funding_gate_witness :
    updateHedgePosition lp100 clientHighFunding "PENDLE" (1/10) (1/200) 42 =
      (⟨false, HedgingAction.INCREASE_SHORT,
          some "Funding rate exceeds tolerance. Skipping hedge increase.", none, 42⟩, []) := by
  apply (updateHedgePosition_funding_gate lp100 clientHighFunding "PENDLE" (1/10) (1/200) 42).1
  · norm_num [controllerDecision, controllerGetHedgePosition, controllerGetMarketData,
      clientHighFunding, marketPendle, determineHedgeAction, lp100, calculateRequiredHedgeSize]
  · have habs : |(3 : ℚ)/500| = 3/500 := abs_of_pos (by norm_num)
    norm_num [controllerGetMarketData, clientHighFunding, marketHighFunding, habs]

/-- C8: updateHedgePosition always returns a result stamped with the
tick timestamp, and a thrown client error on the order call of the
executed branch never escapes: it becomes a failed result with action
NO_ACTION carrying the error message. -/
theorem updateHedgePosition_total_and_exception_safe (lp : LPPosition) (c : ClientOutcomes)
    (ticker : String) (th tol : ℚ) (now : ℕ) :
    (updateHedgePosition lp c ticker th tol now).1.timestamp = now
    ∧ (∀ e, (controllerDecision lp c ticker th).action = HedgingAction.INCREASE_SHORT →
        checkFundingRate c.fundingMarketDataResult ticker tol = true →
        c.openShortResult = ReqResult.err e →
        (updateHedgePosition lp c ticker th tol now).1 =
          ⟨false, HedgingAction.NO_ACTION, none, some e.message, now⟩)
    ∧ (∀ e, (controllerDecision lp c ticker th).action = HedgingAction.DECREASE_SHORT →
        c.reduceShortResult = ReqResult.err e →
        (updateHedgePosition lp c ticker th tol now).1 =
          ⟨false, HedgingAction.NO_ACTION, none, some e.message, now⟩)
    ∧ (∀ e, (controllerDecision lp c ticker th).action = HedgingAction.CLOSE_POSITIONS →
        c.closePositionResult = ReqResult.err e →
        (updateHedgePosition lp c ticker th tol now).1 =
          ⟨false, HedgingAction.NO_ACTION, none, some e.message, now⟩) := by
  refine ⟨?_, ?_, ?_, ?_⟩
  · cases hact : (controllerDecision lp c ticker th).action with
    | NO_ACTION => simp [updateHedgePosition, hact]
    | INCREASE_SHORT =>
        cases hcf : checkFundingRate c.fundingMarketDataResult ticker tol with
        | false => simp [updateHedgePosition, hact, hcf]
        | true =>
            cases hos : c.openShortResult with
            | ok res =>
                by_cases hst : res.status = OrderStatus.success <;>
                  simp [updateHedgePosition, hact, hcf, hos, hst]
            | err e => simp [updateHedgePosition, hact, hcf, hos]
    | DECREASE_SHORT =>
        cases hos : c.reduceShortResult with
        | ok res =>
            by_cases hst : res.status = OrderStatus.success <;>
              simp [updateHedgePosition, hact, hos, hst]
        | err e => simp [updateHedgePosition, hact, hos]
    | CLOSE_POSITIONS =>
        cases hos : c.closePositionResult with
        | ok res =>
            by_cases hst : res.status = OrderStatus.success <;>
              simp [updateHedgePosition, hact, hos, hst]
        | err e => simp [updateHedgePosition, hact, hos]
  · intro e hact hcf hos
    simp [updateHedgePosition, hact, hcf, hos]
  · intro e hact hos
    simp [updateHedgePosition, hact, hos]
  · intro e hact hos
    simp [updateHedgePosition, hact, hos]

/-- C8 witness: a thrown closePosition call on an empty LP position
becomes a failed result with the error message and the tick
timestamp. -/
theorem updateHedgePosition_total_and_exception_safe_witness :
    (updateHedgePosition lpEmpty clientCloseThrows "PENDLE" (1/10) (1/200) 42).1 =
      ⟨false, HedgingAction.NO_ACTION, none, some "socket hang up", 42⟩ := by
  apply (updateHedgePosition_total_and_exception_safe lpEmpty clientCloseThrows "PENDLE"
    (1/10) (1/200) 42).2.2.2 ⟨false, "socket hang up"⟩
  · norm_num [controllerDecision, controllerGetHedgePosition, controllerGetMarketData,
      clientCloseThrows, determineHedgeAction, lpEmpty]
  · rfl

/-- C10: the funding gate fails open. When the market-data fetch inside
the funding check throws, the fallback market data carries fundingRate
0, so checkFundingRate returns true for every nonnegative tolerance,
and a pending INCREASE_SHORT proceeds to place its order. -/
theorem checkFundingRate_fails_open (e : JsError) (ticker : String) (tol : ℚ)
    (htol : 0 ≤ tol) :
    checkFundingRate (ReqResult.err e) ticker tol = true
    ∧ (∀ (lp : LPPosition) (c : ClientOutcomes) (th : ℚ) (now : ℕ),
        c.fundingMarketDataResult = ReqResult.err e →
        (controllerDecision lp c ticker th).action = HedgingAction.INCREASE_SHORT →
        (updateHedgePosition lp c ticker th tol now).2 =
          [OrderEvent.openShort ticker (controllerDecision lp c ticker th).sizeChange]) := by
  have hopen : checkFundingRate (ReqResult.err e) ticker tol = true := by
    simp [checkFundingRate, controllerGetMarketData, isFundingRateAcceptable, htol]
  refine ⟨hopen, ?_⟩
  intro lp c th now hf hact
  have hcf : checkFundingRate c.fundingMarketDataResult ticker tol = true := by
    rw [hf]
    exact hopen
  cases hos : c.openShortResult with
  | ok res =>
      by_cases hst : res.status = OrderStatus.success <;>
        simp [updateHedgePosition, hact, hcf, hos, hst]
  | err e2 =>
      simp [updateHedgePosition, hact, hcf, hos]

/-- C10 witness: a concrete thrown market-data fetch with tolerance
0.005 passes the funding gate. -/
theorem checkFundingRate_fails_open_witness :
    checkFundingRate (ReqResult.err ⟨false, "boom"⟩) "PENDLE" (1/200) = true := by
  exact (checkFundingRate_fails_open ⟨false, "boom"⟩ "PENDLE" (1/200) (by norm_num)).1

end Hoyt
